import Mathlib

/-!
# Verification of the loan amortization core (gs-loan-amortization-app)

Shallow embedding of the pure computational core of `src/main.py`
(`calculate_monthly_payment`, `calculate_loan_schedule`, and the summary
loop of `get_loan_summary`) together with the input validation performed
by the pydantic model `LoanRecord` in `src/schemas.py`.

Python's `Decimal` arithmetic is modelled as exact rational arithmetic
over `ℚ`; the explicit `.quantize(Decimal("0.01"), rounding=ROUND_HALF_DOWN)`
calls of the source are modelled by `quantize2` (round to a multiple of
1/100, ties toward zero).  A computation that raises a Python exception
(`DivisionByZero` from a zero denominator, `IndexError` from an
out-of-range schedule access) is modelled as `none`.
-/

namespace LoanApp

/-- `LoanSchedule` of `src/schemas.py`: one row of the amortization table. -/
structure LoanSchedule where
  month : ℕ
  remaining_balance : ℚ
  monthly_payment : ℚ
  deriving Repr, DecidableEq

/-- `LoanSummary` of `src/schemas.py`. -/
structure LoanSummary where
  current_principal_balance : ℚ
  aggregate_principal_paid : ℚ
  aggregate_interest_paid : ℚ
  deriving Repr, DecidableEq

/-- Round a rational to the nearest integer, ties toward zero
(`decimal.ROUND_HALF_DOWN`). -/
def roundHalfDown (x : ℚ) : ℤ :=
  if 0 ≤ x then ⌈x - 1/2⌉ else ⌊x + 1/2⌋

/-- `x.quantize(Decimal("0.01"), rounding=ROUND_HALF_DOWN)`: round to a
multiple of 1/100, ties toward zero. -/
def quantize2 (x : ℚ) : ℚ :=
  (roundHalfDown (x * 100) : ℚ) / 100

/-- `calculate_monthly_payment` (src/main.py).  `none` models the
`DivisionByZero` / `InvalidOperation` exception Python raises when the
denominator `1 - (1 + monthly_interest_rate) ** -loan_term` is zero
(or when `1 + monthly_interest_rate` is zero with a negative exponent). -/
def calculate_monthly_payment (amount interest_rate : ℚ) (loan_term : ℕ) : Option ℚ :=
  let monthly_interest_rate := interest_rate / (12 * 100)
  let denominator := 1 - (1 + monthly_interest_rate) ^ (-(loan_term : ℤ))
  if 1 + monthly_interest_rate = 0 ∨ denominator = 0 then none
  else some (quantize2 (amount * monthly_interest_rate / denominator))

/-- The body of the `for month in range(1, loan_term + 1)` loop of
`calculate_loan_schedule`: `fuel` months remain, `month` is the current
month number, `remaining_balance` is the (unrounded) balance carried in. -/
def scheduleGo (monthly_interest_rate monthly_payment : ℚ) :
    ℚ → ℕ → ℕ → List LoanSchedule
  | _, _, 0 => []
  | remaining_balance, month, fuel + 1 =>
    let interest_payment := remaining_balance * monthly_interest_rate
    let principal_payment := monthly_payment - interest_payment
    let remaining_balance' := remaining_balance - principal_payment
    { month := month,
      remaining_balance := quantize2 remaining_balance',
      monthly_payment := quantize2 monthly_payment } ::
      scheduleGo monthly_interest_rate monthly_payment remaining_balance' (month + 1) fuel

/-- `calculate_loan_schedule` (src/main.py). -/
def calculate_loan_schedule (amount interest_rate : ℚ) (loan_term : ℕ) :
    Option (List LoanSchedule) :=
  (calculate_monthly_payment amount interest_rate loan_term).map fun monthly_payment =>
    scheduleGo (interest_rate / 12 / 100) monthly_payment amount 1 loan_term

/-- The body of the `for month in range(1, month_number + 1)` loop of
`get_loan_summary` (src/main.py).  `i = month - 1` is the 0-based index
into the schedule; an out-of-range access (Python `IndexError`) is `none`.
State: accumulated `principal_paid`, `interest_paid`, and the running
`remaining_balance`. -/
def summaryGo (annual_interest_rate : ℚ) (schedule : List LoanSchedule) :
    ℕ → ℕ → ℚ → ℚ → ℚ → Option (ℚ × ℚ × ℚ)
  | _, 0, principal_paid, interest_paid, remaining_balance =>
    some (principal_paid, interest_paid, remaining_balance)
  | i, fuel + 1, principal_paid, interest_paid, remaining_balance =>
    match schedule.get? i with
    | none => none
    | some entry =>
      let interest_payment :=
        entry.monthly_payment - remaining_balance * annual_interest_rate / 12 / 100
      let principal_payment := entry.monthly_payment - interest_payment
      summaryGo annual_interest_rate schedule (i + 1) fuel
        (principal_paid + principal_payment) (interest_paid + interest_payment)
        (remaining_balance - principal_payment)

/-- The summary computation of `get_loan_summary` (src/main.py), after the
loan lookup: runs the loop over months `1 .. month_number` (no iterations
when `month_number ≤ 0`, exactly as Python's `range(1, month_number + 1)`)
and quantizes the three resulting fields independently. -/
def get_loan_summary (amount annual_interest_rate : ℚ)
    (schedule : List LoanSchedule) (month_number : ℤ) : Option LoanSummary :=
  (summaryGo annual_interest_rate schedule 0 month_number.toNat 0 0 amount).map
    fun r =>
      { current_principal_balance := quantize2 r.2.2,
        aggregate_principal_paid := quantize2 r.1,
        aggregate_interest_paid := quantize2 r.2.1 }

/-- The validation constraints of `LoanRecord` (src/schemas.py):
`amount: Decimal = Field(ge=1, decimal_places=2)`,
`annual_interest_rate: Decimal = Field(gt=0, decimal_places=4)`,
`loan_term: int = Field(gt=0)`.  A request violating any of them is
rejected with a 422 validation error (the spec's `InvalidInput`). -/
def validLoanRecord (amount annual_interest_rate : ℚ) (loan_term : ℤ) : Prop :=
  1 ≤ amount ∧ (∃ k : ℤ, amount = (k : ℚ) / 100) ∧
    0 < annual_interest_rate ∧ (∃ k : ℤ, annual_interest_rate = (k : ℚ) / 10000) ∧
    0 < loan_term

instance (amount annual_interest_rate : ℚ) (loan_term : ℤ) :
    Decidable (validLoanRecord amount annual_interest_rate loan_term) := by
  unfold validLoanRecord
  have h1 : Decidable (∃ k : ℤ, amount = (k : ℚ) / 100) := by
    refine decidable_of_iff ((amount * 100).den = 1) ?_
    constructor
    · intro h
      exact ⟨(amount * 100).num, by
        rw [eq_div_iff (by norm_num : (100 : ℚ) ≠ 0)]
        exact ((Rat.den_eq_one_iff _).mp h).symm⟩
    · rintro ⟨k, rfl⟩
      rw [div_mul_cancel₀ _ (by norm_num : (100 : ℚ) ≠ 0)]
      exact Rat.den_intCast k
  have h2 : Decidable (∃ k : ℤ, annual_interest_rate = (k : ℚ) / 10000) := by
    refine decidable_of_iff ((annual_interest_rate * 10000).den = 1) ?_
    constructor
    · intro h
      exact ⟨(annual_interest_rate * 10000).num, by
        rw [eq_div_iff (by norm_num : (10000 : ℚ) ≠ 0)]
        exact ((Rat.den_eq_one_iff _).mp h).symm⟩
    · rintro ⟨k, rfl⟩
      rw [div_mul_cancel₀ _ (by norm_num : (10000 : ℚ) ≠ 0)]
      exact Rat.den_intCast k
  exact instDecidableAnd

/-- The full-precision balance recurrence of the spec (§4.1):
`b_0 = amount`, `b_{k+1} = b_k - (monthly_payment - b_k * monthly_rate)`,
never rounded.  Used to state that the schedule loop carries the
unrounded balance forward. -/
def balanceRec (monthly_interest_rate monthly_payment amount : ℚ) : ℕ → ℚ
  | 0 => amount
  | k + 1 =>
    let b := balanceRec monthly_interest_rate monthly_payment amount k
    b - (monthly_payment - b * monthly_interest_rate)

/-! ### Rounding lemmas -/

theorem roundHalfDown_intCast (k : ℤ) : roundHalfDown (k : ℚ) = k := by
  unfold roundHalfDown
  have hc : ⌈(k : ℚ) - 1 / 2⌉ = k := by
    have h : (k : ℚ) - 1 / 2 = -(1 / 2) + k := by ring
    rw [h, Int.ceil_add_int]
    norm_num
  have hf : ⌊(k : ℚ) + 1 / 2⌋ = k := by
    rw [Int.floor_int_add]
    norm_num
  split
  · exact hc
  · exact hf

theorem quantize2_int_div (k : ℤ) : quantize2 ((k : ℚ) / 100) = (k : ℚ) / 100 := by
  unfold quantize2
  rw [div_mul_cancel₀ _ (by norm_num : (100 : ℚ) ≠ 0), roundHalfDown_intCast]

/-- `quantize2` always produces a value of the form `k / 100`. -/
theorem quantize2_eq_int_div (x : ℚ) : ∃ k : ℤ, quantize2 x = (k : ℚ) / 100 :=
  ⟨roundHalfDown (x * 100), rfl⟩

theorem quantize2_idem (x : ℚ) : quantize2 (quantize2 x) = quantize2 x := by
  obtain ⟨k, hk⟩ := quantize2_eq_int_div x
  rw [hk, quantize2_int_div]

theorem quantize2_zero : quantize2 0 = 0 := by
  have h := quantize2_int_div 0
  simpa using h

theorem abs_roundHalfDown_sub_le (x : ℚ) : |(roundHalfDown x : ℚ) - x| ≤ 1 / 2 := by
  unfold roundHalfDown
  split
  · rw [abs_le]
    constructor
    · have h := Int.le_ceil (x - 1 / 2)
      push_cast at h ⊢
      linarith
    · have h := Int.ceil_lt_add_one (x - 1 / 2)
      push_cast at h ⊢
      linarith
  · rw [abs_le]
    constructor
    · have h := Int.lt_floor_add_one (x + 1 / 2)
      push_cast at h ⊢
      linarith
    · have h := Int.floor_le (x + 1 / 2)
      push_cast at h ⊢
      linarith

theorem abs_quantize2_sub_le (x : ℚ) : |quantize2 x - x| ≤ 1 / 200 := by
  have h := abs_roundHalfDown_sub_le (x * 100)
  unfold quantize2
  have h2 : (roundHalfDown (x * 100) : ℚ) / 100 - x =
      ((roundHalfDown (x * 100) : ℚ) - x * 100) / 100 := by ring
  rw [h2, abs_div]
  rw [show |(100 : ℚ)| = 100 by norm_num]
  rw [div_le_iff₀ (by norm_num : (0 : ℚ) < 100)]
  linarith

/-! ### Schedule loop lemmas -/

theorem scheduleGo_length (r mp bal : ℚ) (m n : ℕ) :
    (scheduleGo r mp bal m n).length = n := by
  induction n generalizing bal m with
  | zero => rfl
  | succ k ih => simp [scheduleGo, ih]

theorem balanceRec_shift (r mp bal : ℚ) (k : ℕ) :
    balanceRec r mp (bal - (mp - bal * r)) k = balanceRec r mp bal (k + 1) := by
  induction k with
  | zero => rfl
  | succ j ih => simp only [balanceRec, ih]

theorem scheduleGo_get? (r mp : ℚ) :
    ∀ (n i : ℕ) (bal : ℚ) (m : ℕ), i < n →
      (scheduleGo r mp bal m n).get? i =
        some ⟨m + i, quantize2 (balanceRec r mp bal (i + 1)), quantize2 mp⟩ := by
  intro n
  induction n with
  | zero => intro i bal m h; omega
  | succ k ih =>
    intro i bal m h
    cases i with
    | zero =>
      simp [scheduleGo, balanceRec]
    | succ j =>
      have hj : j < k := by omega
      simp only [scheduleGo, List.get?_cons_succ]
      rw [ih j _ (m + 1) hj, balanceRec_shift]
      congr 2
      omega

theorem scheduleGo_mem_monthly_payment (r mp bal : ℚ) (m n : ℕ) :
    ∀ e ∈ scheduleGo r mp bal m n, e.monthly_payment = quantize2 mp := by
  induction n generalizing bal m with
  | zero => intro e he; simp [scheduleGo] at he
  | succ k ih =>
    intro e he
    simp only [scheduleGo, List.mem_cons] at he
    rcases he with rfl | he
    · rfl
    · exact ih _ _ e he

/-! ### Monthly payment: totality on the positive domain -/

theorem calculate_monthly_payment_eq_some (amount rate : ℚ) (n : ℕ)
    (hrate : 0 < rate) (hn : 0 < n) :
    calculate_monthly_payment amount rate n =
      some (quantize2 (amount * (rate / (12 * 100)) /
        (1 - (1 + rate / (12 * 100)) ^ (-(n : ℤ))))) := by
  have hr : 0 < rate / (12 * 100) := by positivity
  have h1 : (1 : ℚ) < 1 + rate / (12 * 100) := by linarith
  have hne : 1 + rate / (12 * 100) ≠ 0 := by linarith
  have hpow : (1 + rate / (12 * 100)) ^ (-(n : ℤ)) < 1 := by
    rw [zpow_neg, zpow_natCast]
    exact inv_lt_one_of_one_lt₀ (one_lt_pow₀ h1 (by omega))
  have hden : 1 - (1 + rate / (12 * 100)) ^ (-(n : ℤ)) ≠ 0 := by
    intro h
    have : (1 + rate / (12 * 100)) ^ (-(n : ℤ)) = 1 := by linarith
    rw [this] at hpow
    exact lt_irrefl _ hpow
  unfold calculate_monthly_payment
  simp only [if_neg (not_or.mpr ⟨hne, hden⟩)]

/-! ### Summary loop lemmas -/

/-- Each iteration of the summary loop subtracts from `remaining_balance`
exactly the quantity it adds to `principal_paid`: their sum is preserved. -/
theorem summaryGo_balance_invariant (rate : ℚ) (sched : List LoanSchedule) :
    ∀ (fuel i : ℕ) (pp ip rb pp' ip' rb' : ℚ),
      summaryGo rate sched i fuel pp ip rb = some (pp', ip', rb') →
      rb' + pp' = rb + pp := by
  intro fuel
  induction fuel with
  | zero =>
    intro i pp ip rb pp' ip' rb' h
    simp only [summaryGo, Option.some.injEq, Prod.mk.injEq] at h
    obtain ⟨h1, h2, h3⟩ := h
    rw [← h1, ← h3]
  | succ k ih =>
    intro i pp ip rb pp' ip' rb' h
    simp only [summaryGo] at h
    cases hget : sched.get? i with
    | none => rw [hget] at h; exact absurd h (by simp)
    | some entry =>
      rw [hget] at h
      have := ih (i + 1) _ _ _ _ _ _ h
      linarith

/-- Each iteration adds `entry.monthly_payment` in total to the two paid
accumulators; with a constant payment the sum grows by `fuel * mp`. -/
theorem summaryGo_paid_sum (rate mp : ℚ) (sched : List LoanSchedule)
    (hmp : ∀ e ∈ sched, e.monthly_payment = mp) :
    ∀ (fuel i : ℕ) (pp ip rb pp' ip' rb' : ℚ),
      summaryGo rate sched i fuel pp ip rb = some (pp', ip', rb') →
      pp' + ip' = pp + ip + fuel * mp := by
  intro fuel
  induction fuel with
  | zero =>
    intro i pp ip rb pp' ip' rb' h
    simp only [summaryGo, Option.some.injEq, Prod.mk.injEq] at h
    obtain ⟨h1, h2, h3⟩ := h
    rw [← h1, ← h2]
    ring
  | succ k ih =>
    intro i pp ip rb pp' ip' rb' h
    simp only [summaryGo] at h
    cases hget : sched.get? i with
    | none => rw [hget] at h; exact absurd h (by simp)
    | some entry =>
      rw [hget] at h
      have hent : entry.monthly_payment = mp := hmp entry (List.get?_mem hget)
      have := ih (i + 1) _ _ _ _ _ _ h
      rw [this, hent]
      push_cast
      ring

/-- The loop succeeds when it stays within the schedule. -/
theorem summaryGo_isSome (rate : ℚ) (sched : List LoanSchedule) :
    ∀ (fuel i : ℕ) (pp ip rb : ℚ), i + fuel ≤ sched.length →
      ∃ out, summaryGo rate sched i fuel pp ip rb = some out := by
  intro fuel
  induction fuel with
  | zero => intro i pp ip rb _; exact ⟨_, rfl⟩
  | succ k ih =>
    intro i pp ip rb h
    have hi : i < sched.length := by omega
    have hget : sched.get? i = some (sched.get ⟨i, hi⟩) := List.get?_eq_get hi
    simp only [summaryGo, hget]
    exact ih (i + 1) _ _ _ (by omega)

/-- The loop raises `IndexError` (`none`) as soon as it runs past the end
of the schedule. -/
theorem summaryGo_eq_none (rate : ℚ) (sched : List LoanSchedule) :
    ∀ (fuel i : ℕ) (pp ip rb : ℚ), i ≤ sched.length →
      sched.length < i + fuel →
      summaryGo rate sched i fuel pp ip rb = none := by
  intro fuel
  induction fuel with
  | zero => intro i pp ip rb h1 h2; omega
  | succ k ih =>
    intro i pp ip rb h1 h2
    by_cases hi : i < sched.length
    · have hget : sched.get? i = some (sched.get ⟨i, hi⟩) := List.get?_eq_get hi
      simp only [summaryGo, hget]
      exact ih (i + 1) _ _ _ (by omega) (by omega)
    · have hnone : sched.get? i = none := List.get?_eq_none.mpr (by omega)
      simp only [summaryGo, hnone]

/-- Helper for evaluating `quantize2` at a concrete rational: `quantize2 x = q`
follows from bracketing `x * 100` around the integer `n` with `q = n / 100`. -/
theorem quantize2_eq_lit (x q : ℚ) (n : ℤ) (hq : (n : ℚ) / 100 = q)
    (h : (0 ≤ x ∧ (n : ℚ) - 1 < x * 100 - 1 / 2 ∧ x * 100 - 1 / 2 ≤ (n : ℚ)) ∨
      (x < 0 ∧ (n : ℚ) ≤ x * 100 + 1 / 2 ∧ x * 100 + 1 / 2 < (n : ℚ) + 1)) :
    quantize2 x = q := by
  have hr : roundHalfDown (x * 100) = n := by
    unfold roundHalfDown
    rcases h with ⟨h0, h1, h2⟩ | ⟨h0, h1, h2⟩
    · rw [if_pos (by linarith : (0 : ℚ) ≤ x * 100)]
      exact Int.ceil_eq_iff.mpr ⟨h1, h2⟩
    · rw [if_neg (by intro hc; linarith : ¬ (0 : ℚ) ≤ x * 100)]
      exact Int.floor_eq_iff.mpr ⟨h1, h2⟩
  unfold quantize2
  rw [hr, hq]

/-- When the payment computation succeeds, the schedule is the loop applied
to it, started at the full principal and month 1. -/
theorem calculate_loan_schedule_eq_some (amount rate : ℚ) (n : ℕ) (mp : ℚ)
    (hmp : calculate_monthly_payment amount rate n = some mp) :
    calculate_loan_schedule amount rate n =
      some (scheduleGo (rate / 12 / 100) mp amount 1 n) := by
  unfold calculate_loan_schedule
  rw [hmp, Option.map_some']

/-- C1: for every positive principal, rate and term, the monthly payment is
`principal * monthly_rate / (1 - (1 + monthly_rate) ** -term)` with
`monthly_rate = rate / 12 / 100` computed exactly and rounded once to two
digits, and every schedule entry carries exactly that rounded value; for
principal 10000, rate 5.5, term 12 the payment is 858.37 in every entry. -/
theorem C1_monthly_payment_formula :
    (∀ (amount rate : ℚ) (term : ℕ), 0 < amount → 0 < rate → 0 < term →
      ∃ l, calculate_loan_schedule amount rate term = some l ∧ l.length = term ∧
        calculate_monthly_payment amount rate term =
          some (quantize2 (amount * (rate / (12 * 100)) /
            (1 - (1 + rate / (12 * 100)) ^ (-(term : ℤ))))) ∧
        ∀ e ∈ l, e.monthly_payment =
          quantize2 (amount * (rate / (12 * 100)) /
            (1 - (1 + rate / (12 * 100)) ^ (-(term : ℤ))))) ∧
    (calculate_monthly_payment 10000 (11 / 2) 12 = some (85837 / 100) ∧
      ∃ l, calculate_loan_schedule 10000 (11 / 2) 12 = some l ∧ l.length = 12 ∧
        ∀ e ∈ l, e.monthly_payment = 85837 / 100) := by
  have main : ∀ (amount rate : ℚ) (term : ℕ), 0 < rate → 0 < term →
      ∃ l, calculate_loan_schedule amount rate term = some l ∧ l.length = term ∧
        calculate_monthly_payment amount rate term =
          some (quantize2 (amount * (rate / (12 * 100)) /
            (1 - (1 + rate / (12 * 100)) ^ (-(term : ℤ))))) ∧
        ∀ e ∈ l, e.monthly_payment =
          quantize2 (amount * (rate / (12 * 100)) /
            (1 - (1 + rate / (12 * 100)) ^ (-(term : ℤ)))) := by
    intro amount rate term hrate hterm
    have hmp := calculate_monthly_payment_eq_some amount rate term hrate hterm
    refine ⟨_, calculate_loan_schedule_eq_some amount rate term _ hmp,
      scheduleGo_length _ _ _ _ _, hmp, ?_⟩
    intro e he
    rw [scheduleGo_mem_monthly_payment _ _ _ _ _ e he, quantize2_idem]
  have hval : quantize2 ((10000 : ℚ) * (11 / 2 / (12 * 100)) /
      (1 - (1 + 11 / 2 / (12 * 100)) ^ (-((12 : ℕ) : ℤ)))) = 85837 / 100 :=
    quantize2_eq_lit _ _ 85837 (by norm_num) (by norm_num)
  refine ⟨fun amount rate term _ hr ht => main amount rate term hr ht, ?_⟩
  obtain ⟨l, hl, hlen, hmp, hall⟩ := main 10000 (11 / 2) 12 (by norm_num) (by norm_num)
  rw [hval] at hmp
  refine ⟨hmp, l, hl, hlen, ?_⟩
  intro e he
  rw [hall e he, hval]

/-- Witness for C1 at principal 2000, rate 5, term 24. -/
theorem C1_witness :
    ∃ l, calculate_loan_schedule 2000 5 24 = some l ∧ l.length = 24 ∧
      calculate_monthly_payment 2000 5 24 =
        some (quantize2 ((2000 : ℚ) * (5 / (12 * 100)) /
          (1 - (1 + 5 / (12 * 100)) ^ (-((24 : ℕ) : ℤ))))) ∧
      ∀ e ∈ l, e.monthly_payment =
        quantize2 ((2000 : ℚ) * (5 / (12 * 100)) /
          (1 - (1 + 5 / (12 * 100)) ^ (-((24 : ℕ) : ℤ)))) :=
  C1_monthly_payment_formula.1 2000 5 24 (by norm_num) (by norm_num) (by norm_num)

/-- C3: for every positive principal, rate and term, the schedule has exactly
`term` entries and the entry at 0-based index `i` has `month = i + 1`. -/
theorem C3_schedule_length_months :
    ∀ (amount rate : ℚ) (term : ℕ), 0 < amount → 0 < rate → 0 < term →
      ∃ l, calculate_loan_schedule amount rate term = some l ∧ l.length = term ∧
        ∀ i, i < term → ∃ e, l.get? i = some e ∧ e.month = i + 1 := by
  intro amount rate term _ hrate hterm
  have hmp := calculate_monthly_payment_eq_some amount rate term hrate hterm
  refine ⟨_, calculate_loan_schedule_eq_some amount rate term _ hmp,
    scheduleGo_length _ _ _ _ _, ?_⟩
  intro i hi
  refine ⟨_, scheduleGo_get? _ _ term i amount 1 hi, ?_⟩
  simp [Nat.add_comm]

/-- Witness for C3 at principal 10000, rate 5.5, term 12. -/
theorem C3_witness :
    ∃ l, calculate_loan_schedule 10000 (11 / 2) 12 = some l ∧ l.length = 12 ∧
      ∀ i, i < 12 → ∃ e, l.get? i = some e ∧ e.month = i + 1 :=
  C3_schedule_length_months 10000 (11 / 2) 12 (by norm_num) (by norm_num) (by norm_num)

/-- C4: every emitted `remaining_balance` is the two-digit rounding of the
exact, full-precision recurrence value `balanceRec`; the balance carried
between iterations is never rounded. -/
theorem C4_unrounded_balance_carry :
    ∀ (amount rate : ℚ) (term : ℕ), 0 < rate → 0 < term →
      ∃ mp l, calculate_monthly_payment amount rate term = some mp ∧
        calculate_loan_schedule amount rate term = some l ∧
        ∀ i, i < term → ∃ e, l.get? i = some e ∧
          e.remaining_balance =
            quantize2 (balanceRec (rate / 12 / 100) mp amount (i + 1)) := by
  intro amount rate term hrate hterm
  have hmp := calculate_monthly_payment_eq_some amount rate term hrate hterm
  refine ⟨_, _, hmp, calculate_loan_schedule_eq_some amount rate term _ hmp, ?_⟩
  intro i hi
  exact ⟨_, scheduleGo_get? _ _ term i amount 1 hi, rfl⟩

/-- Witness for C4 at principal 10000, rate 3, term 12. -/
theorem C4_witness :
    ∃ mp l, calculate_monthly_payment 10000 3 12 = some mp ∧
      calculate_loan_schedule 10000 3 12 = some l ∧
      ∀ i, i < 12 → ∃ e, l.get? i = some e ∧
        e.remaining_balance = quantize2 (balanceRec (3 / 12 / 100) mp 10000 (i + 1)) :=
  C4_unrounded_balance_carry 10000 3 12 (by norm_num) (by norm_num)

/-- C5: for principal 10000, rate 3, term 12 the first schedule entry is
month 1, payment 846.94, balance 9178.06, and the final entry's reported
balance is within 0.10 of zero (it is -0.04). -/
theorem C5_concrete_schedule :
    ∃ l, calculate_loan_schedule 10000 3 12 = some l ∧
      l.get? 0 = some ⟨1, 458903 / 50, 42347 / 50⟩ ∧
      ∃ e, l.get? 11 = some e ∧ e.monthly_payment = 42347 / 50 ∧
        |e.remaining_balance| < 1 / 10 := by
  have hmp : calculate_monthly_payment 10000 3 12 = some (42347 / 50) := by
    rw [calculate_monthly_payment_eq_some 10000 3 12 (by norm_num) (by norm_num)]
    exact congrArg some (quantize2_eq_lit _ _ 84694 (by norm_num) (by norm_num))
  refine ⟨_, calculate_loan_schedule_eq_some 10000 3 12 _ hmp, ?_, ?_⟩
  · rw [scheduleGo_get? _ _ 12 0 10000 1 (by norm_num)]
    simp only [Option.some.injEq, LoanSchedule.mk.injEq]
    refine ⟨by norm_num, ?_, ?_⟩
    · exact quantize2_eq_lit _ _ 917806 (by norm_num) (by norm_num [balanceRec])
    · exact quantize2_eq_lit _ _ 84694 (by norm_num) (by norm_num)
  · refine ⟨_, scheduleGo_get? _ _ 12 11 10000 1 (by norm_num), ?_, ?_⟩
    · exact quantize2_eq_lit _ _ 84694 (by norm_num) (by norm_num)
    · have hq : quantize2 (balanceRec (3 / 12 / 100) (42347 / 50) 10000 (11 + 1)) =
          -(1 / 25) :=
        quantize2_eq_lit _ _ (-4) (by norm_num) (by norm_num [balanceRec])
      rw [hq, abs_neg, abs_of_nonneg (by norm_num : (0 : ℚ) ≤ 1 / 25)]
      norm_num

/-- C2: for principal 10000, rate 3, term 12, month_number 6, the schedule
reports remaining_balance 5037.43 at month 6, but the summary loop returns
current_principal_balance 9850.93, aggregate_principal_paid 149.07 and
aggregate_interest_paid 4932.57 instead of the claimed
(5037.43, 4962.57, 119.07): the loop's `interest_payment` and
`principal_payment` are swapped and the balance is decremented by the
interest portion only, contradicting the repository's own tests. -/
theorem C2_summary_loop_diverges :
    ∃ l, calculate_loan_schedule 10000 3 12 = some l ∧
      (∃ e, l.get? 5 = some e ∧ e.remaining_balance = 503743 / 100) ∧
      get_loan_summary 10000 3 l 6 =
        some ⟨985093 / 100, 14907 / 100, 493257 / 100⟩ ∧
      get_loan_summary 10000 3 l 6 ≠
        some ⟨503743 / 100, 496257 / 100, 11907 / 100⟩ := by
  have hmp : calculate_monthly_payment 10000 3 12 = some (42347 / 50) := by
    rw [calculate_monthly_payment_eq_some 10000 3 12 (by norm_num) (by norm_num)]
    exact congrArg some (quantize2_eq_lit _ _ 84694 (by norm_num) (by norm_num))
  have hsch : calculate_loan_schedule 10000 3 12 =
      some (scheduleGo (1 / 400) (42347 / 50) 10000 1 12) := by
    rw [calculate_loan_schedule_eq_some 10000 3 12 _ hmp]
    norm_num
  have hq42 : quantize2 ((42347 : ℚ) / 50) = 42347 / 50 :=
    quantize2_eq_lit _ _ 84694 (by norm_num) (by norm_num)
  have hqb1 : quantize2 ((458903 : ℚ) / 50) = 458903 / 50 :=
    quantize2_eq_lit _ _ 917806 (by norm_num) (by norm_num)
  have hqb2 : quantize2 ((167081303 : ℚ) / 20000) = 835407 / 100 :=
    quantize2_eq_lit _ _ 835407 (by norm_num) (by norm_num)
  have hqb3 : quantize2 ((60224082503 : ℚ) / 8000000) = 752801 / 100 :=
    quantize2_eq_lit _ _ 752801 (by norm_num) (by norm_num)
  have hqb4 : quantize2 ((21439649083703 : ℚ) / 3200000000) = 669989 / 100 :=
    quantize2_eq_lit _ _ 669989 (by norm_num) (by norm_num)
  have hqb5 : quantize2 ((7513216082564903 : ℚ) / 1280000000000) = 58697 / 10 :=
    quantize2_eq_lit _ _ 586970 (by norm_num) (by norm_num)
  have hqb6 : quantize2 ((2579166369108526103 : ℚ) / 512000000000000) = 503743 / 100 :=
    quantize2_eq_lit _ _ 503743 (by norm_num) (by norm_num)
  have hget0 : (scheduleGo (1 / 400) (42347 / 50) 10000 1 12)[(0 : ℕ)]? =
      some ⟨1, 458903 / 50, 42347 / 50⟩ := by
    rw [← List.get?_eq_getElem?, scheduleGo_get? _ _ 12 0 10000 1 (by norm_num)]
    norm_num [balanceRec, hqb1, hq42]
  have hget1 : (scheduleGo (1 / 400) (42347 / 50) 10000 1 12)[(1 : ℕ)]? =
      some ⟨2, 835407 / 100, 42347 / 50⟩ := by
    rw [← List.get?_eq_getElem?, scheduleGo_get? _ _ 12 1 10000 1 (by norm_num)]
    norm_num [balanceRec, hqb2, hq42]
  have hget2 : (scheduleGo (1 / 400) (42347 / 50) 10000 1 12)[(2 : ℕ)]? =
      some ⟨3, 752801 / 100, 42347 / 50⟩ := by
    rw [← List.get?_eq_getElem?, scheduleGo_get? _ _ 12 2 10000 1 (by norm_num)]
    norm_num [balanceRec, hqb3, hq42]
  have hget3 : (scheduleGo (1 / 400) (42347 / 50) 10000 1 12)[(3 : ℕ)]? =
      some ⟨4, 669989 / 100, 42347 / 50⟩ := by
    rw [← List.get?_eq_getElem?, scheduleGo_get? _ _ 12 3 10000 1 (by norm_num)]
    norm_num [balanceRec, hqb4, hq42]
  have hget4 : (scheduleGo (1 / 400) (42347 / 50) 10000 1 12)[(4 : ℕ)]? =
      some ⟨5, 58697 / 10, 42347 / 50⟩ := by
    rw [← List.get?_eq_getElem?, scheduleGo_get? _ _ 12 4 10000 1 (by norm_num)]
    norm_num [balanceRec, hqb5, hq42]
  have hget5 : (scheduleGo (1 / 400) (42347 / 50) 10000 1 12)[(5 : ℕ)]? =
      some ⟨6, 503743 / 100, 42347 / 50⟩ := by
    rw [← List.get?_eq_getElem?, scheduleGo_get? _ _ 12 5 10000 1 (by norm_num)]
    norm_num [balanceRec, hqb6, hq42]
  have hrun : summaryGo 3 (scheduleGo (1 / 400) (42347 / 50) 10000 1 12) 0 6 0 0 10000 =
      some (61057277602399 / 409600000000, 2020382466397601 / 409600000000,
        4034942722397601 / 409600000000) := by
    norm_num [summaryGo, hget0, hget1, hget2, hget3, hget4, hget5]
  have hsum : get_loan_summary 10000 3 (scheduleGo (1 / 400) (42347 / 50) 10000 1 12) 6 =
      some ⟨985093 / 100, 14907 / 100, 493257 / 100⟩ := by
    unfold get_loan_summary
    rw [show ((6 : ℤ).toNat) = 6 from rfl, hrun, Option.map_some']
    refine congrArg some ?_
    have e1 : quantize2 ((4034942722397601 : ℚ) / 409600000000) = 985093 / 100 :=
      quantize2_eq_lit _ _ 985093 (by norm_num) (by norm_num)
    have e2 : quantize2 ((61057277602399 : ℚ) / 409600000000) = 14907 / 100 :=
      quantize2_eq_lit _ _ 14907 (by norm_num) (by norm_num)
    have e3 : quantize2 ((2020382466397601 : ℚ) / 409600000000) = 493257 / 100 :=
      quantize2_eq_lit _ _ 493257 (by norm_num) (by norm_num)
    show LoanSummary.mk (quantize2 (4034942722397601 / 409600000000))
      (quantize2 (61057277602399 / 409600000000))
      (quantize2 (2020382466397601 / 409600000000)) = _
    rw [e1, e2, e3]
  refine ⟨_, hsch, ⟨_, by rw [List.get?_eq_getElem?]; exact hget5, rfl⟩, hsum, ?_⟩
  rw [hsum]
  intro hcon
  rw [Option.some.injEq, LoanSummary.mk.injEq] at hcon
  norm_num at hcon

/-- C6 counterexample: for the valid loan principal 100, annual rate 0.06,
term 12, at month_number 1 the two independently rounded fields hit exact
half-cent ties and sum to 8.33, not the monthly payment 8.34 times 1. -/
theorem C6_counterexample_rounding_residual :
    validLoanRecord 100 (6 / 100) 12 ∧
      calculate_monthly_payment 100 (6 / 100) 12 = some (417 / 50) ∧
      ∃ l, calculate_loan_schedule 100 (6 / 100) 12 = some l ∧
        get_loan_summary 100 (6 / 100) l 1 = some ⟨9999 / 100, 0, 833 / 100⟩ ∧
        (0 : ℚ) + 833 / 100 ≠ 417 / 50 * 1 := by
  have hmp : calculate_monthly_payment 100 (6 / 100) 12 = some (417 / 50) := by
    rw [calculate_monthly_payment_eq_some 100 (6 / 100) 12 (by norm_num) (by norm_num)]
    exact congrArg some (quantize2_eq_lit _ _ 834 (by norm_num) (by norm_num))
  have hsch : calculate_loan_schedule 100 (6 / 100) 12 =
      some (scheduleGo (1 / 20000) (417 / 50) 100 1 12) := by
    rw [calculate_loan_schedule_eq_some 100 (6 / 100) 12 _ hmp]
    norm_num
  have hq417 : quantize2 ((417 : ℚ) / 50) = 417 / 50 :=
    quantize2_eq_lit _ _ 834 (by norm_num) (by norm_num)
  have hqc1 : quantize2 ((18333 : ℚ) / 200) = 4583 / 50 :=
    quantize2_eq_lit _ _ 9166 (by norm_num) (by norm_num)
  have hget0 : (scheduleGo (1 / 20000) (417 / 50) 100 1 12)[(0 : ℕ)]? =
      some ⟨1, 4583 / 50, 417 / 50⟩ := by
    rw [← List.get?_eq_getElem?, scheduleGo_get? _ _ 12 0 100 1 (by norm_num)]
    norm_num [balanceRec, hqc1, hq417]
  have hrun : summaryGo (6 / 100) (scheduleGo (1 / 20000) (417 / 50) 100 1 12) 0 1 0 0 100 =
      some (1 / 200, 1667 / 200, 19999 / 200) := by
    norm_num [summaryGo, hget0]
  refine ⟨⟨by norm_num, ⟨10000, by norm_num⟩, by norm_num, ⟨600, by norm_num⟩,
    by norm_num⟩, hmp, _, hsch, ?_, by norm_num⟩
  unfold get_loan_summary
  rw [show ((1 : ℤ).toNat) = 1 from rfl, hrun, Option.map_some']
  refine congrArg some ?_
  have e1 : quantize2 ((19999 : ℚ) / 200) = 9999 / 100 :=
    quantize2_eq_lit _ _ 9999 (by norm_num) (by norm_num)
  have e2 : quantize2 ((1 : ℚ) / 200) = 0 :=
    quantize2_eq_lit _ _ 0 (by norm_num) (by norm_num)
  have e3 : quantize2 ((1667 : ℚ) / 200) = 833 / 100 :=
    quantize2_eq_lit _ _ 833 (by norm_num) (by norm_num)
  show LoanSummary.mk (quantize2 (19999 / 200)) (quantize2 (1 / 200))
    (quantize2 (1667 / 200)) = _
  rw [e1, e2, e3]

/-- C6 (amended): before the two paid fields are rounded, the accumulators
satisfy `principal_paid + interest_paid = monthly_payment * month_number`
exactly, for any schedule whose entries all carry the same payment; the
returned fields are the independent roundings of these exact values. -/
theorem C6_amended_exact_before_rounding :
    ∀ (amount rate mp : ℚ) (sched : List LoanSchedule) (mn : ℕ),
      (∀ e ∈ sched, e.monthly_payment = mp) → mn ≤ sched.length →
      ∃ pp ip rb, summaryGo rate sched 0 mn 0 0 amount = some (pp, ip, rb) ∧
        pp + ip = mp * mn ∧
        get_loan_summary amount rate sched (mn : ℤ) =
          some ⟨quantize2 rb, quantize2 pp, quantize2 ip⟩ := by
  intro amount rate mp sched mn hconst hle
  obtain ⟨⟨pp, ip, rb⟩, hrun⟩ := summaryGo_isSome rate sched mn 0 0 0 amount (by omega)
  refine ⟨pp, ip, rb, hrun, ?_, ?_⟩
  · have h := summaryGo_paid_sum rate mp sched hconst mn 0 0 0 amount pp ip rb hrun
    rw [h]
    ring
  · unfold get_loan_summary
    rw [Int.toNat_natCast, hrun]
    rfl

/-- Witness for the amended C6 on a one-entry schedule with payment 846.94. -/
theorem C6_witness :
    ∃ pp ip rb,
      summaryGo 3 [⟨1, 458903 / 50, 42347 / 50⟩] 0 1 0 0 10000 = some (pp, ip, rb) ∧
        pp + ip = 42347 / 50 * ((1 : ℕ) : ℚ) ∧
        get_loan_summary 10000 3 [⟨1, 458903 / 50, 42347 / 50⟩] ((1 : ℕ) : ℤ) =
          some ⟨quantize2 rb, quantize2 pp, quantize2 ip⟩ :=
  C6_amended_exact_before_rounding 10000 3 (42347 / 50) [⟨1, 458903 / 50, 42347 / 50⟩] 1
    (by intro e he; simp only [List.mem_singleton] at he; subst he; rfl) (by simp)

/-- C7: with month_number 0 the summary loop performs no iteration and, for
any two-decimal principal `k / 100` and any schedule (including the empty
one, so no schedule indexing can occur), returns the principal itself and
zero for both paid aggregates. -/
theorem C7_month_zero_summary :
    ∀ (k : ℤ) (rate : ℚ) (sched : List LoanSchedule),
      get_loan_summary ((k : ℚ) / 100) rate sched 0 = some ⟨(k : ℚ) / 100, 0, 0⟩ := by
  intro k rate sched
  unfold get_loan_summary
  rw [show ((0 : ℤ).toNat) = 0 from rfl]
  simp only [summaryGo, Option.map_some']
  refine congrArg some ?_
  show LoanSummary.mk (quantize2 ((k : ℚ) / 100)) (quantize2 0) (quantize2 0) = _
  rw [quantize2_int_div, quantize2_zero]

/-- C8 counterexample: for principal -100 (rate 5, term 12) the schedule
computation does not fail at all: it returns a full 12-entry schedule. -/
theorem C8_counterexample_no_failure :
    ∃ l, calculate_loan_schedule (-100) 5 12 = some l ∧ l.length = 12 := by
  have hmp := calculate_monthly_payment_eq_some (-100) 5 12 (by norm_num) (by norm_num)
  exact ⟨_, calculate_loan_schedule_eq_some _ _ _ _ hmp, scheduleGo_length _ _ _ _ _⟩

/-- With `loan_term = 0` the denominator `1 - (1 + r) ** 0` is zero and the
payment computation raises a Decimal arithmetic error (modelled `none`):
`DivisionByZero` for a nonzero numerator, `InvalidOperation` (0/0) when the
numerator is zero too. -/
theorem calculate_monthly_payment_term_zero (amount rate : ℚ) :
    calculate_monthly_payment amount rate 0 = none := by
  unfold calculate_monthly_payment
  rw [if_pos]
  right
  norm_num

/-- With `interest_rate = 0` the denominator `1 - 1 ** -loan_term` is zero as
is the numerator, and the payment computation raises Decimal's
`InvalidOperation` (0/0), modelled `none`. -/
theorem calculate_monthly_payment_rate_zero (amount : ℚ) (n : ℕ) :
    calculate_monthly_payment amount 0 n = none := by
  unfold calculate_monthly_payment
  rw [if_pos]
  right
  norm_num

/-- When the payment computation fails, so does the schedule computation. -/
theorem calculate_loan_schedule_eq_none (amount rate : ℚ) (n : ℕ)
    (h : calculate_monthly_payment amount rate n = none) :
    calculate_loan_schedule amount rate n = none := by
  unfold calculate_loan_schedule
  rw [h]
  rfl

/-- C8 (amended): the `InvalidInput` rejection happens in `LoanRecord`
validation, which rejects every principal below 1 (hence all of
principal ≤ 0 and also 0 < principal < 1), every rate ≤ 0 and every
term ≤ 0, not in the schedule computation.  `calculate_loan_schedule`
itself validates nothing: with term = 0, or with rate = 0, the payment
denominator is zero and it fails with a Decimal arithmetic error
(`InvalidOperation` for the 0/0 of rate = 0, `DivisionByZero` for term = 0
with a nonzero numerator), never `InvalidInput`; for any principal
whatsoever with a positive rate and a positive term it returns a full
schedule of length `term` without failing. -/
theorem C8_amended_validation_location :
    ∀ (amount rate : ℚ) (term : ℤ),
      ((amount < 1 ∨ rate ≤ 0 ∨ term ≤ 0) → ¬ validLoanRecord amount rate term) ∧
      calculate_loan_schedule amount rate 0 = none ∧
      calculate_loan_schedule amount 0 term.toNat = none ∧
      (0 < rate → 0 < term →
        ∃ l, calculate_loan_schedule amount rate term.toNat = some l ∧
          l.length = term.toNat) := by
  intro amount rate term
  refine ⟨?_, ?_, ?_, ?_⟩
  · rintro (h | h | h) ⟨h1, _, h3, _, h5⟩
    · linarith
    · linarith
    · omega
  · exact calculate_loan_schedule_eq_none _ _ _
      (calculate_monthly_payment_term_zero amount rate)
  · exact calculate_loan_schedule_eq_none _ _ _
      (calculate_monthly_payment_rate_zero amount term.toNat)
  · intro hrate hterm
    have hmp := calculate_monthly_payment_eq_some amount rate term.toNat hrate (by omega)
    exact ⟨_, calculate_loan_schedule_eq_some _ _ _ _ hmp, scheduleGo_length _ _ _ _ _⟩

/-- Witness for the amended C8: the sub-unit principal 0.5 is rejected by
validation, rate 0 and term 0 make the schedule computation fail, and the
valid loan (10000, 3, 12) gets a full 12-entry schedule. -/
theorem C8_witness :
    (¬ validLoanRecord (1 / 2) 5 12) ∧
      calculate_loan_schedule (1 / 2) 5 0 = none ∧
      calculate_loan_schedule (1 / 2) 0 (12 : ℤ).toNat = none ∧
      ∃ l, calculate_loan_schedule 10000 3 (12 : ℤ).toNat = some l ∧
        l.length = (12 : ℤ).toNat :=
  ⟨(C8_amended_validation_location (1 / 2) 5 12).1 (Or.inl (by norm_num)),
    (C8_amended_validation_location (1 / 2) 5 12).2.1,
    (C8_amended_validation_location (1 / 2) 5 12).2.2.1,
    (C8_amended_validation_location 10000 3 12).2.2.2 (by norm_num) (by norm_num)⟩

/-- C9 counterexample: month_number -1 does not fail with `InvalidInput`:
the loop body never runs and the summary succeeds with the pre-payment
values. -/
theorem C9_counterexample_negative_month_succeeds :
    get_loan_summary 10000 3 [] (-1) = some ⟨10000, 0, 0⟩ := by
  have h10000 : quantize2 (10000 : ℚ) = 10000 := by
    have h := quantize2_int_div 1000000
    norm_num at h
    exact h
  unfold get_loan_summary
  rw [show ((-1 : ℤ).toNat) = 0 from rfl]
  simp only [summaryGo, Option.map_some']
  refine congrArg some ?_
  show LoanSummary.mk (quantize2 10000) (quantize2 0) (quantize2 0) = _
  rw [h10000, quantize2_zero]

/-- C9 (amended): the summary computation performs no month_number
validation: a negative month_number behaves exactly like 0 (and succeeds),
any month_number in [0, schedule length] succeeds, and a month_number
beyond the schedule fails with an out-of-range access (IndexError), never
with `InvalidInput`. -/
theorem C9_amended_no_validation :
    ∀ (amount rate : ℚ) (sched : List LoanSchedule) (mn : ℤ),
      (mn < 0 → get_loan_summary amount rate sched mn =
        get_loan_summary amount rate sched 0) ∧
      (0 ≤ mn → mn ≤ (sched.length : ℤ) →
        ∃ s, get_loan_summary amount rate sched mn = some s) ∧
      ((sched.length : ℤ) < mn → get_loan_summary amount rate sched mn = none) := by
  intro amount rate sched mn
  refine ⟨?_, ?_, ?_⟩
  · intro h
    have ht : mn.toNat = (0 : ℤ).toNat := by omega
    unfold get_loan_summary
    rw [ht]
  · intro h0 hlen
    obtain ⟨out, hout⟩ := summaryGo_isSome rate sched mn.toNat 0 0 0 amount (by omega)
    exact ⟨_, by unfold get_loan_summary; rw [hout]; rfl⟩
  · intro h
    unfold get_loan_summary
    rw [summaryGo_eq_none rate sched mn.toNat 0 0 0 amount (by omega) (by omega)]
    rfl

/-- Witness for the amended C9 on the empty schedule. -/
theorem C9_witness :
    (get_loan_summary 10000 3 [] (-7) = get_loan_summary 10000 3 [] 0) ∧
      (∃ s, get_loan_summary 10000 3 [] 0 = some s) ∧
      get_loan_summary 10000 3 [] 1 = none :=
  ⟨(C9_amended_no_validation 10000 3 [] (-7)).1 (by norm_num),
    (C9_amended_no_validation 10000 3 [] 0).2.1 (by norm_num) (by simp),
    (C9_amended_no_validation 10000 3 [] 1).2.2 (by simp)⟩

/-- C10: every iteration of the summary loop moves exactly the same quantity
from the running balance to principal_paid, so their sum is the original
amount after every iteration, and the two returned rounded fields sum to
the original amount up to 0.01. -/
theorem C10_balance_principal_invariant :
    ∀ (amount rate : ℚ) (sched : List LoanSchedule) (mn : ℕ),
      mn ≤ sched.length →
      ∃ pp ip rb, summaryGo rate sched 0 mn 0 0 amount = some (pp, ip, rb) ∧
        rb + pp = amount ∧
        get_loan_summary amount rate sched (mn : ℤ) =
          some ⟨quantize2 rb, quantize2 pp, quantize2 ip⟩ ∧
        |quantize2 rb + quantize2 pp - amount| ≤ 1 / 100 := by
  intro amount rate sched mn hle
  obtain ⟨⟨pp, ip, rb⟩, hrun⟩ := summaryGo_isSome rate sched mn 0 0 0 amount (by omega)
  have hinv : rb + pp = amount := by
    have h := summaryGo_balance_invariant rate sched mn 0 0 0 amount pp ip rb hrun
    linarith
  refine ⟨pp, ip, rb, hrun, hinv, ?_, ?_⟩
  · unfold get_loan_summary
    rw [Int.toNat_natCast, hrun]
    rfl
  · have h1 := abs_quantize2_sub_le rb
    have h2 := abs_quantize2_sub_le pp
    have hsplit : quantize2 rb + quantize2 pp - amount =
        (quantize2 rb - rb) + (quantize2 pp - pp) := by
      rw [← hinv]; ring
    rw [hsplit]
    calc |(quantize2 rb - rb) + (quantize2 pp - pp)|
        ≤ |quantize2 rb - rb| + |quantize2 pp - pp| := abs_add _ _
      _ ≤ 1 / 200 + 1 / 200 := add_le_add h1 h2
      _ ≤ 1 / 100 := by norm_num

/-- Witness for C10 on a one-entry schedule. -/
theorem C10_witness :
    ∃ pp ip rb,
      summaryGo 3 [⟨1, 458903 / 50, 42347 / 50⟩] 0 1 0 0 10000 = some (pp, ip, rb) ∧
        rb + pp = 10000 ∧
        get_loan_summary 10000 3 [⟨1, 458903 / 50, 42347 / 50⟩] ((1 : ℕ) : ℤ) =
          some ⟨quantize2 rb, quantize2 pp, quantize2 ip⟩ ∧
        |quantize2 rb + quantize2 pp - 10000| ≤ 1 / 100 :=
  C10_balance_principal_invariant 10000 3 [⟨1, 458903 / 50, 42347 / 50⟩] 1 (by simp)

end LoanApp
